import Mathlib

/-!
Shallow embedding of the buffered_logger worker loop (src/lib.rs).

The worker thread of `Logger::start` owns a fixed-capacity byte buffer
(`bytes_buf` of `buffer_size` bytes, fill pointer `curr_len`), the active
log file and its running size estimate `file_size`, and the retention
window `rotated_items`.  It consumes `Message`s (`Flush`, `Rotate`,
`Msg(String)`) from a channel.  We embed the body of the loop as a step
function on an explicit state.  I/O effects are reflected in the state:
the active file's content, the bytes echoed to stdout, the archived
(renamed) files, the set of archive files on disk, and the deletion
attempts of the retention pruning.  A Rust panic (an out-of-bounds slice
copy) is modelled as `none`.

Nondeterministic inputs of the code are oracles: `del` tells which
`remove_file` calls succeed (the code ignores the result either way), and
the timestamp-derived name of each rotation is supplied per rotation.
-/

namespace BufferedLogger

/-- Configuration fields of the `Logger` struct used by the worker:
`retain`, `buffer_size`, `rotate_size` and the stdout-echo flag. -/
structure Config where
  retain : Nat
  buffer_size : Nat
  rotate_size : Nat
  stdout : Bool
  deriving DecidableEq, Repr

/-- State of the worker thread spawned by `Logger::start`, together with
the externally visible effects of its I/O. -/
structure WorkerState where
  /-- fill pointer `curr_len` of the byte buffer -/
  curr_len : Nat
  /-- content of the fixed-size `bytes_buf` vector -/
  bytes_buf : List Nat
  /-- bytes appended to the active log file since the model started -/
  file : List Nat
  /-- the worker's running size estimate of the active file -/
  file_size : Nat
  /-- the retention window `rotated_items` (paths of (future) .gz archives) -/
  rotated_items : List (List Char)
  /-- archive files currently on disk (model of the log directory) -/
  disk : List (List Char)
  /-- every path on which the pruning loop called `remove_file` -/
  deleteAttempts : List (List Char)
  /-- renamed-out former active files with their content, oldest first -/
  archived : List (List Char × List Nat)
  /-- bytes echoed to standard output -/
  stdoutOut : List Nat
  /-- number of rotations performed so far (names the next rotation) -/
  nextGen : Nat
  deriving DecidableEq, Repr

/-- The `Message` enum of lib.rs: `Flush`, `Rotate`, `Msg(String)`.
Entry text is a byte list. -/
inductive Message where
  | flush : Message
  | rotate : Message
  | msg : List Nat → Message
  deriving DecidableEq, Repr

/-- Rust slice assignment `buf[start .. start + data.len()].copy_from_slice(data)`:
`none` when the range is out of bounds for `buf` (a panic in Rust). -/
def setSlice (buf : List Nat) (start : Nat) (data : List Nat) : Option (List Nat) :=
  if start + data.length ≤ buf.length then
    some (buf.take start ++ data ++ buf.drop (start + data.length))
  else none

/-- Name of the compressed archive: `format!("\x7b\x7d.gz", rotated_log_file_name)`. -/
def gzName (name : List Char) : List Char := name ++ ['.', 'g', 'z']

/-- The pruning loop of `rotate` (lib.rs lines 225-230):
`while rotated_items.len() > retain` remove the front element, attempting
(best effort, result ignored) to delete its file from disk.  Returns the
remaining window, the disk content, and the accumulated deletion attempts. -/
def prune (retain : Nat) (del : List Char → Bool) :
    List (List Char) → List (List Char) → List (List Char) →
    List (List Char) × List (List Char) × List (List Char)
  | [], disk, attempts => ([], disk, attempts)
  | x :: rest, disk, attempts =>
    if retain < (x :: rest).length then
      prune retain del rest (if del x then disk.erase x else disk) (attempts ++ [x])
    else (x :: rest, disk, attempts)

/-- The `rotate` closure of lib.rs (lines 207-243): reset `file_size` to 0,
rename the active file to the timestamped `name` (its content becomes an
archive and the active file restarts empty), push the eventual `.gz` path
onto the retention window, and prune the window down to `retain`.  The
detached compression thread eventually produces the `.gz` file, so the
model adds it to the disk. -/
def rotateStep (cfg : Config) (del : List Char → Bool) (name : List Char)
    (s : WorkerState) : WorkerState :=
  let zip := gzName name
  let pushed := s.rotated_items ++ [zip]
  let pruned := prune cfg.retain del pushed (s.disk ++ [zip]) s.deleteAttempts
  { s with
    file_size := 0
    archived := s.archived ++ [(name, s.file)]
    file := []
    rotated_items := pruned.1
    disk := pruned.2.1
    deleteAttempts := pruned.2.2
    nextGen := s.nextGen + 1 }

/-- The `Message::Flush` arm (lib.rs lines 248-255): write the first
`curr_len` bytes of the buffer to the active file, echo them to stdout
when the flag is set, and reset the fill pointer. -/
def flushStep (cfg : Config) (s : WorkerState) : WorkerState :=
  let out := s.bytes_buf.take s.curr_len
  { s with
    file := s.file ++ out
    stdoutOut := s.stdoutOut ++ (if cfg.stdout then out else [])
    curr_len := 0 }

/-- First half of the `Message::Msg(data)` arm (lib.rs lines 260-267):
`next_file_size = file_size + len`; if it exceeds `rotate_size`, rotate
(which resets `file_size` to 0 and does not count this entry), else
advance `file_size` to `next_file_size`. -/
def fileStep (cfg : Config) (del : List Char → Bool) (name : List Char)
    (s : WorkerState) (len : Nat) : WorkerState :=
  if cfg.rotate_size < s.file_size + len then rotateStep cfg del name s
  else { s with file_size := s.file_size + len }

/-- Second half of the `Message::Msg(data)` arm (lib.rs lines 268-279):
if `curr_len + len` exceeds `buffer_size`, write the current buffer
content to the file (echoing to stdout when enabled) and copy the entry
to the front of the buffer, else append the entry at `curr_len`.  Both
copies go through `setSlice` and fail (the Rust slice indexing panics)
when the entry does not fit the fixed-size buffer. -/
def bufStep (cfg : Config) (s : WorkerState) (data : List Nat) : Option WorkerState :=
  if cfg.buffer_size < s.curr_len + data.length then
    let out := s.bytes_buf.take s.curr_len
    (setSlice s.bytes_buf 0 data).map fun buf =>
      { s with
        file := s.file ++ out
        stdoutOut := s.stdoutOut ++ (if cfg.stdout then out else [])
        bytes_buf := buf
        curr_len := data.length }
  else
    (setSlice s.bytes_buf s.curr_len data).map fun buf =>
      { s with bytes_buf := buf, curr_len := s.curr_len + data.length }

/-- The `Message::Msg(data)` arm (lib.rs lines 259-279): the file-size /
rotation decision runs first, then the buffer step.  Rotation does not
change `curr_len` or `bytes_buf`, so the buffer step's comparison
`curr_len + len > buffer_size` reads the same values the source computes
into `next_len` up front. -/
def msgStep (cfg : Config) (del : List Char → Bool) (name : List Char)
    (s : WorkerState) (data : List Nat) : Option WorkerState :=
  bufStep cfg (fileStep cfg del name s data.length) data

/-- One iteration of the worker loop (lib.rs lines 245-282), dispatching
on the received message. -/
def step (cfg : Config) (del : List Char → Bool) (name : List Char)
    (s : WorkerState) : Message → Option WorkerState
  | Message.flush => some (flushStep cfg s)
  | Message.rotate => some (rotateStep cfg del name s)
  | Message.msg data => msgStep cfg del name s data

/-- Run the worker loop over a list of messages.  `names n` is the
timestamp-derived file name of the n-th rotation. -/
def run (cfg : Config) (del : List Char → Bool) (names : Nat → List Char)
    (s : WorkerState) : List Message → Option WorkerState
  | [] => some s
  | m :: ms =>
    match step cfg del (names s.nextGen) s m with
    | none => none
    | some t => run cfg del names t ms

/-- A block of exactly `n` decimal digits. -/
def digitsBlock (n : Nat) (s : List Char) : Bool :=
  s.length == n && s.all Char.isDigit

/-- Whether `s` is exactly one instance of the archive-name pattern, the
body of the regex built at lib.rs line 189:
stem `.` six digits `.` six digits `.` three digits `.` ext `.gz`
(with the configured stem and extension read as literal text). -/
def archiveSuffix (stem ext : List Char) (s : List Char) : Bool :=
  let p := stem ++ ['.']
  let r1 := s.drop p.length
  let r2 := r1.drop 6
  let r3 := r2.drop 1
  let r4 := r3.drop 6
  let r5 := r4.drop 1
  let r6 := r5.drop 3
  (s.take p.length == p) &&
  digitsBlock 6 (r1.take 6) && (r2.take 1 == ['.']) &&
  digitsBlock 6 (r3.take 6) && (r4.take 1 == ['.']) &&
  digitsBlock 3 (r5.take 3) &&
  (r6 == ['.'] ++ ext ++ ['.', 'g', 'z'])

/-- The regex of lib.rs line 189 is unanchored on the left and anchored
with `$` on the right, so `is_match path` holds exactly when some suffix
of the path is an instance of the pattern body. -/
def isArchiveName (stem ext : List Char) (path : List Char) : Bool :=
  (List.range (path.length + 1)).any fun k => archiveSuffix stem ext (path.drop k)

/-- Boolean path comparison used to model `rotated_items.sort()`. -/
def pathLe (a b : List Char) : Bool := decide (a ≤ b)

/-- Startup reconciliation of the retention window (lib.rs lines 189-204):
keep the directory entries matching the archive pattern and sort them
ascending. -/
def startupScan (stem ext : List Char) (dir : List (List Char)) : List (List Char) :=
  (dir.filter (isArchiveName stem ext)).mergeSort pathLe

/-- Worker startup state (lib.rs lines 125-126, 182-204): zeroed buffer of
`buffer_size` bytes with fill 0, the active file's existing content with
its length recorded as `file_size`, and the retention window seeded by the
directory scan. -/
def initState (cfg : Config) (stem ext : List Char) (content : List Nat)
    (dir : List (List Char)) : WorkerState :=
  { curr_len := 0
    bytes_buf := List.replicate cfg.buffer_size 0
    file := content
    file_size := content.length
    rotated_items := startupScan stem ext dir
    disk := startupScan stem ext dir
    deleteAttempts := []
    archived := []
    stdoutOut := []
    nextGen := 0 }

/-- The state invariant maintained by the worker: the buffer vector keeps
its allocated size and the fill pointer stays within it. -/
abbrev Inv (cfg : Config) (s : WorkerState) : Prop :=
  s.bytes_buf.length = cfg.buffer_size ∧ s.curr_len ≤ cfg.buffer_size

/-! Concrete instances used by the claim counterexamples and witnesses. -/

def c6cfg : Config := { retain := 1, buffer_size := 3, rotate_size := 9, stdout := true }

def c6s : WorkerState :=
  { curr_len := 2, bytes_buf := [4, 5, 6], file := [1], file_size := 1,
    rotated_items := [], disk := [], deleteAttempts := [], archived := [],
    stdoutOut := [], nextGen := 0 }

def c6t : WorkerState :=
  { curr_len := 0, bytes_buf := [4, 5, 6], file := [1, 4, 5], file_size := 1,
    rotated_items := [], disk := [], deleteAttempts := [], archived := [],
    stdoutOut := [4, 5], nextGen := 0 }

def c1cfg : Config := { retain := 1, buffer_size := 1, rotate_size := 10, stdout := false }

def c1s : WorkerState :=
  { curr_len := 0, bytes_buf := [0], file := [], file_size := 0,
    rotated_items := [], disk := [], deleteAttempts := [], archived := [],
    stdoutOut := [], nextGen := 0 }

def c2cfg : Config := { retain := 3, buffer_size := 20, rotate_size := 100, stdout := false }

def c2s : WorkerState :=
  { curr_len := 0, bytes_buf := List.replicate 20 0, file := [1, 2, 3], file_size := 95,
    rotated_items := [], disk := [], deleteAttempts := [], archived := [],
    stdoutOut := [], nextGen := 0 }

def c2del : List Char → Bool := fun _ => true

def c2name : List Char := ['n']

def c2data : List Nat := [1, 2, 3, 4, 5, 6, 7, 8, 9, 10]

def c3cfg : Config := { retain := 1, buffer_size := 5, rotate_size := 10, stdout := true }

def c3s : WorkerState :=
  { curr_len := 3, bytes_buf := [5, 6, 7, 0, 0], file := [9], file_size := 8,
    rotated_items := [], disk := [], deleteAttempts := [], archived := [],
    stdoutOut := [], nextGen := 0 }

def c3del : List Char → Bool := fun _ => true

def c3name : List Char := ['a']

def c3t : WorkerState :=
  { curr_len := 3, bytes_buf := [1, 1, 1, 0, 0], file := [5, 6, 7], file_size := 0,
    rotated_items := [['a', '.', 'g', 'z']], disk := [['a', '.', 'g', 'z']],
    deleteAttempts := [], archived := [(['a'], [9])],
    stdoutOut := [5, 6, 7], nextGen := 1 }

def c4cfg : Config := { retain := 1, buffer_size := 3, rotate_size := 100, stdout := true }

def c4s : WorkerState :=
  { curr_len := 0, bytes_buf := [0, 0, 0], file := [], file_size := 0,
    rotated_items := [], disk := [], deleteAttempts := [], archived := [],
    stdoutOut := [], nextGen := 0 }

def c4del : List Char → Bool := fun _ => true

def c4names : Nat → List Char := fun _ => ['x']

def c4ms : List Message :=
  [Message.msg [1, 1], Message.msg [2, 2], Message.flush, Message.msg [3]]

def c4t : WorkerState :=
  { curr_len := 1, bytes_buf := [3, 2, 0], file := [1, 1, 2, 2], file_size := 5,
    rotated_items := [], disk := [], deleteAttempts := [], archived := [],
    stdoutOut := [1, 1, 2, 2], nextGen := 0 }

def c5ccfg : Config := { retain := 1, buffer_size := 2, rotate_size := 50, stdout := false }

def c5cs : WorkerState :=
  { curr_len := 0, bytes_buf := [0, 0], file := [], file_size := 0,
    rotated_items := [], disk := [], deleteAttempts := [], archived := [],
    stdoutOut := [], nextGen := 0 }

def c5cfg : Config := { retain := 2, buffer_size := 10, rotate_size := 1000, stdout := true }

def c5s : WorkerState :=
  { curr_len := 10, bytes_buf := [97, 98, 99, 100, 101, 102, 103, 104, 105, 106],
    file := [], file_size := 30, rotated_items := [], disk := [],
    deleteAttempts := [], archived := [], stdoutOut := [], nextGen := 0 }

def c5t : WorkerState :=
  { curr_len := 1, bytes_buf := [107, 98, 99, 100, 101, 102, 103, 104, 105, 106],
    file := [97, 98, 99, 100, 101, 102, 103, 104, 105, 106], file_size := 31,
    rotated_items := [], disk := [], deleteAttempts := [], archived := [],
    stdoutOut := [97, 98, 99, 100, 101, 102, 103, 104, 105, 106], nextGen := 0 }

def c10cfg : Config := { retain := 1, buffer_size := 4, rotate_size := 5, stdout := false }

def c10s : WorkerState :=
  { curr_len := 0, bytes_buf := [0, 0, 0, 0], file := [8, 8, 8, 8], file_size := 4,
    rotated_items := [], disk := [], deleteAttempts := [], archived := [],
    stdoutOut := [], nextGen := 0 }

def c10names : Nat → List Char := fun n => [Char.ofNat (110 + n)]

def c10ms : List Message :=
  [Message.msg [1, 1], Message.rotate, Message.msg [2], Message.flush]

def c10t : WorkerState :=
  { curr_len := 0, bytes_buf := [1, 1, 2, 0], file := [1, 1, 2], file_size := 1,
    rotated_items := [['o', '.', 'g', 'z']], disk := [['o', '.', 'g', 'z']],
    deleteAttempts := [['n', '.', 'g', 'z']],
    archived := [(['n'], [8, 8, 8, 8]), (['o'], [])],
    stdoutOut := [], nextGen := 2 }

/-! Helper lemmas about the embedded operations. -/

theorem setSlice_eq_some {buf data out : List Nat} {start : Nat} :
    setSlice buf start data = some out ↔
      start + data.length ≤ buf.length ∧
      out = buf.take start ++ data ++ buf.drop (start + data.length) := by
  unfold setSlice
  split
  · simp only [Option.some.injEq]
    constructor
    · intro h
      exact ⟨by assumption, h.symm⟩
    · intro h
      exact h.2.symm
  · simp only [reduceCtorEq, false_iff, not_and]
    intro h
    exact absurd h (by assumption)

@[simp] theorem rotateStep_curr_len (cfg : Config) (del : List Char → Bool)
    (name : List Char) (s : WorkerState) :
    (rotateStep cfg del name s).curr_len = s.curr_len := rfl

@[simp] theorem rotateStep_bytes_buf (cfg : Config) (del : List Char → Bool)
    (name : List Char) (s : WorkerState) :
    (rotateStep cfg del name s).bytes_buf = s.bytes_buf := rfl

@[simp] theorem rotateStep_file_size (cfg : Config) (del : List Char → Bool)
    (name : List Char) (s : WorkerState) :
    (rotateStep cfg del name s).file_size = 0 := rfl

@[simp] theorem rotateStep_file (cfg : Config) (del : List Char → Bool)
    (name : List Char) (s : WorkerState) :
    (rotateStep cfg del name s).file = [] := rfl

@[simp] theorem rotateStep_archived (cfg : Config) (del : List Char → Bool)
    (name : List Char) (s : WorkerState) :
    (rotateStep cfg del name s).archived = s.archived ++ [(name, s.file)] := rfl

@[simp] theorem rotateStep_stdoutOut (cfg : Config) (del : List Char → Bool)
    (name : List Char) (s : WorkerState) :
    (rotateStep cfg del name s).stdoutOut = s.stdoutOut := rfl

@[simp] theorem rotateStep_nextGen (cfg : Config) (del : List Char → Bool)
    (name : List Char) (s : WorkerState) :
    (rotateStep cfg del name s).nextGen = s.nextGen + 1 := rfl

theorem rotateStep_rotated_items (cfg : Config) (del : List Char → Bool)
    (name : List Char) (s : WorkerState) :
    (rotateStep cfg del name s).rotated_items =
      (prune cfg.retain del (s.rotated_items ++ [gzName name])
        (s.disk ++ [gzName name]) s.deleteAttempts).1 := rfl

theorem rotateStep_deleteAttempts (cfg : Config) (del : List Char → Bool)
    (name : List Char) (s : WorkerState) :
    (rotateStep cfg del name s).deleteAttempts =
      (prune cfg.retain del (s.rotated_items ++ [gzName name])
        (s.disk ++ [gzName name]) s.deleteAttempts).2.2 := rfl

@[simp] theorem fileStep_curr_len (cfg : Config) (del : List Char → Bool)
    (name : List Char) (s : WorkerState) (len : Nat) :
    (fileStep cfg del name s len).curr_len = s.curr_len := by
  unfold fileStep
  split <;> rfl

@[simp] theorem fileStep_bytes_buf (cfg : Config) (del : List Char → Bool)
    (name : List Char) (s : WorkerState) (len : Nat) :
    (fileStep cfg del name s len).bytes_buf = s.bytes_buf := by
  unfold fileStep
  split <;> rfl

@[simp] theorem fileStep_stdoutOut (cfg : Config) (del : List Char → Bool)
    (name : List Char) (s : WorkerState) (len : Nat) :
    (fileStep cfg del name s len).stdoutOut = s.stdoutOut := by
  unfold fileStep
  split <;> rfl

theorem fileStep_file_size_le (cfg : Config) (del : List Char → Bool)
    (name : List Char) (s : WorkerState) (len : Nat) :
    (fileStep cfg del name s len).file_size ≤ cfg.rotate_size := by
  unfold fileStep
  split
  · simp
  · simp only [WorkerState.file_size]
    omega

/-- Inversion of the buffer step: a successful result is either the
overflow branch (flush, then the entry alone at the front) or the append
branch. -/
theorem bufStep_some {cfg : Config} {s t : WorkerState} {data : List Nat}
    (h : bufStep cfg s data = some t) :
    (cfg.buffer_size < s.curr_len + data.length ∧
      data.length ≤ s.bytes_buf.length ∧
      t = { s with
        file := s.file ++ s.bytes_buf.take s.curr_len
        stdoutOut := s.stdoutOut ++ (if cfg.stdout then s.bytes_buf.take s.curr_len else [])
        bytes_buf := data ++ s.bytes_buf.drop data.length
        curr_len := data.length }) ∨
    (¬ cfg.buffer_size < s.curr_len + data.length ∧
      s.curr_len + data.length ≤ s.bytes_buf.length ∧
      t = { s with
        bytes_buf := s.bytes_buf.take s.curr_len ++ data ++
          s.bytes_buf.drop (s.curr_len + data.length)
        curr_len := s.curr_len + data.length }) := by
  unfold bufStep at h
  split at h
  · left
    rw [Option.map_eq_some'] at h
    obtain ⟨buf, hset, ht⟩ := h
    rw [setSlice_eq_some] at hset
    refine ⟨by assumption, by omega, ?_⟩
    rw [← ht, hset.2]
    simp
  · right
    rw [Option.map_eq_some'] at h
    obtain ⟨buf, hset, ht⟩ := h
    rw [setSlice_eq_some] at hset
    refine ⟨by assumption, hset.1, ?_⟩
    rw [← ht, hset.2]

/-- The buffer step leaves `file_size` untouched. -/
theorem bufStep_file_size {cfg : Config} {s t : WorkerState} {data : List Nat}
    (h : bufStep cfg s data = some t) : t.file_size = s.file_size := by
  rcases bufStep_some h with ⟨_, _, rfl⟩ | ⟨_, _, rfl⟩ <;> rfl

/-- The buffer step leaves the retention window and archives untouched. -/
theorem bufStep_rotated_items {cfg : Config} {s t : WorkerState} {data : List Nat}
    (h : bufStep cfg s data = some t) :
    t.rotated_items = s.rotated_items ∧ t.archived = s.archived := by
  rcases bufStep_some h with ⟨_, _, rfl⟩ | ⟨_, _, rfl⟩ <;> exact ⟨rfl, rfl⟩

theorem prune_items (retain : Nat) (del : List Char → Bool) :
    ∀ (items disk attempts : List (List Char)),
      (prune retain del items disk attempts).1 =
        items.drop (items.length - retain) := by
  intro items
  induction items with
  | nil => intro disk attempts; simp [prune]
  | cons x rest ih =>
    intro disk attempts
    unfold prune
    split
    · rw [ih]
      have hlen : (x :: rest).length - retain = (rest.length - retain) + 1 := by
        simp only [List.length_cons] at *
        omega
      rw [hlen, List.drop_succ_cons]
    · have hlen : (x :: rest).length - retain = 0 := by
        simp only [List.length_cons] at *
        omega
      rw [hlen, List.drop_zero]

theorem prune_attempts (retain : Nat) (del : List Char → Bool) :
    ∀ (items disk attempts : List (List Char)),
      (prune retain del items disk attempts).2.2 =
        attempts ++ items.take (items.length - retain) := by
  intro items
  induction items with
  | nil => intro disk attempts; simp [prune]
  | cons x rest ih =>
    intro disk attempts
    unfold prune
    split
    · rw [ih]
      have hlen : (x :: rest).length - retain = (rest.length - retain) + 1 := by
        simp only [List.length_cons] at *
        omega
      rw [hlen, List.take_succ_cons]
      simp
    · have hlen : (x :: rest).length - retain = 0 := by
        simp only [List.length_cons] at *
        omega
      rw [hlen, List.take_zero, List.append_nil]

/-- The worker invariant is preserved by one loop iteration. -/
theorem step_inv {cfg : Config} {del : List Char → Bool} {name : List Char}
    {s t : WorkerState} {m : Message}
    (hinv : Inv cfg s) (h : step cfg del name s m = some t) : Inv cfg t := by
  cases m with
  | flush =>
    simp only [step, Option.some.injEq] at h
    rw [← h]
    exact ⟨hinv.1, Nat.zero_le _⟩
  | rotate =>
    simp only [step, Option.some.injEq] at h
    rw [← h]
    exact hinv
  | msg data =>
    replace h : bufStep cfg (fileStep cfg del name s data.length) data = some t := h
    rcases bufStep_some h with ⟨hc, hfit, rfl⟩ | ⟨hc, hfit, rfl⟩ <;>
      simp only [fileStep_curr_len, fileStep_bytes_buf] at hc hfit ⊢ <;>
      constructor <;>
      simp only [List.length_append, List.length_take, List.length_drop] <;>
      omega

/-- The worker invariant is preserved by any run of the loop. -/
theorem run_inv {cfg : Config} {del : List Char → Bool} {names : Nat → List Char} :
    ∀ {ms : List Message} {s t : WorkerState},
      Inv cfg s → run cfg del names s ms = some t → Inv cfg t := by
  intro ms
  induction ms with
  | nil =>
    intro s t hinv h
    simp only [run, Option.some.injEq] at h
    rw [← h]
    exact hinv
  | cons m ms ih =>
    intro s t hinv h
    simp only [run] at h
    cases hstep : step cfg del (names s.nextGen) s m with
    | none => rw [hstep] at h; exact absurd h (by simp)
    | some u =>
      rw [hstep] at h
      exact ih (step_inv hinv hstep) h

/-- One loop iteration keeps `file_size` within `rotate_size`. -/
theorem step_file_size_le {cfg : Config} {del : List Char → Bool} {name : List Char}
    {s t : WorkerState} {m : Message}
    (h0 : s.file_size ≤ cfg.rotate_size) (h : step cfg del name s m = some t) :
    t.file_size ≤ cfg.rotate_size := by
  cases m with
  | flush =>
    simp only [step, Option.some.injEq] at h
    rw [← h]
    exact h0
  | rotate =>
    simp only [step, Option.some.injEq] at h
    rw [← h]
    simp
  | msg data =>
    replace h : bufStep cfg (fileStep cfg del name s data.length) data = some t := h
    rw [bufStep_file_size h]
    exact fileStep_file_size_le cfg del name s data.length

/-- Any run of the loop keeps `file_size` within `rotate_size`. -/
theorem run_file_size_le {cfg : Config} {del : List Char → Bool} {names : Nat → List Char} :
    ∀ {ms : List Message} {s t : WorkerState},
      s.file_size ≤ cfg.rotate_size → run cfg del names s ms = some t →
      t.file_size ≤ cfg.rotate_size := by
  intro ms
  induction ms with
  | nil =>
    intro s t h0 h
    simp only [run, Option.some.injEq] at h
    rw [← h]
    exact h0
  | cons m ms ih =>
    intro s t h0 h
    simp only [run] at h
    cases hstep : step cfg del (names s.nextGen) s m with
    | none => rw [hstep] at h; exact absurd h (by simp)
    | some u =>
      rw [hstep] at h
      exact ih (step_file_size_le h0 hstep) h

/-! Claim theorems. -/

/-- C6: after processing a `FlushRequest` message, the active file's
content equals its previous content with exactly the previously buffered
bytes (the first `curr_len` bytes of the buffer) appended, the same bytes
go to stdout exactly when the echo flag is set, and the buffer fill is 0
(lib.rs lines 248-255). -/
theorem c6_flush_correct (cfg : Config) (del : List Char → Bool) (name : List Char)
    (s t : WorkerState) (h : step cfg del name s Message.flush = some t) :
    t.file = s.file ++ s.bytes_buf.take s.curr_len ∧
    t.stdoutOut = s.stdoutOut ++ (if cfg.stdout then s.bytes_buf.take s.curr_len else []) ∧
    t.curr_len = 0 ∧
    t.file_size = s.file_size ∧
    t.bytes_buf = s.bytes_buf ∧
    t.rotated_items = s.rotated_items := by
  simp only [step, Option.some.injEq] at h
  rw [← h]
  exact ⟨rfl, rfl, rfl, rfl, rfl, rfl⟩

/-- Witness for C6: a concrete flush of two buffered bytes. -/
theorem c6_flush_correct_witness :
    c6t.file = c6s.file ++ c6s.bytes_buf.take c6s.curr_len ∧
    c6t.stdoutOut = c6s.stdoutOut ++
      (if c6cfg.stdout then c6s.bytes_buf.take c6s.curr_len else []) ∧
    c6t.curr_len = 0 ∧
    c6t.file_size = c6s.file_size ∧
    c6t.bytes_buf = c6s.bytes_buf ∧
    c6t.rotated_items = c6s.rotated_items :=
  c6_flush_correct c6cfg (fun _ => true) [] c6s c6t (by decide)

/-- C7: after every rotation (this `rotateStep` is invoked both by the
`Rotate` message and by the entry-triggered rotation), the retention
window holds at most `retain` paths; the window is the pushed sequence
with the excess dropped strictly from the front (the oldest end), and
exactly those dropped entries had their files deletion-attempted
(lib.rs lines 224-230). -/
theorem c7_retention_bound (cfg : Config) (del : List Char → Bool)
    (name : List Char) (s : WorkerState) :
    (rotateStep cfg del name s).rotated_items.length ≤ cfg.retain ∧
    (rotateStep cfg del name s).rotated_items =
      (s.rotated_items ++ [gzName name]).drop
        ((s.rotated_items ++ [gzName name]).length - cfg.retain) ∧
    (rotateStep cfg del name s).deleteAttempts =
      s.deleteAttempts ++ (s.rotated_items ++ [gzName name]).take
        ((s.rotated_items ++ [gzName name]).length - cfg.retain) := by
  refine ⟨?_, ?_, ?_⟩
  · rw [rotateStep_rotated_items, prune_items]
    simp only [List.length_drop]
    omega
  · rw [rotateStep_rotated_items, prune_items]
  · rw [rotateStep_deleteAttempts, prune_attempts]

/-- C8: the startup reconciliation seeds the retention window with
exactly the directory entries matching the archive naming pattern,
sorted ascending by name (lib.rs lines 189-204). -/
theorem c8_startup_scan (stem ext : List Char) (dir : List (List Char)) :
    (startupScan stem ext dir).Perm (dir.filter (isArchiveName stem ext)) ∧
    (startupScan stem ext dir).Pairwise (fun a b => pathLe a b = true) ∧
    (startupScan stem ext dir).length = (dir.filter (isArchiveName stem ext)).length ∧
    ∀ p, p ∈ startupScan stem ext dir ↔ p ∈ dir ∧ isArchiveName stem ext p = true := by
  have hperm : (startupScan stem ext dir).Perm (dir.filter (isArchiveName stem ext)) :=
    List.mergeSort_perm _ pathLe
  refine ⟨hperm, ?_, hperm.length_eq, ?_⟩
  · refine List.sorted_mergeSort ?_ ?_ _
    · intro a b c hab hbc
      simp only [pathLe, decide_eq_true_eq] at hab hbc ⊢
      exact le_trans hab hbc
    · intro a b
      simp only [pathLe, Bool.or_eq_true, decide_eq_true_eq]
      exact le_total a b
  · intro p
    rw [hperm.mem_iff, List.mem_filter]

/-- C9: retention pruning is best effort: whether each `remove_file`
succeeds (oracle `del`) has no effect on the resulting retention window,
on the recorded deletion attempts, or on any other worker-visible field;
the rotation never fails (the `Rotate` arm always produces a state). -/
theorem c9_prune_best_effort (cfg : Config) (del1 del2 : List Char → Bool)
    (name : List Char) (s : WorkerState) :
    step cfg del1 name s Message.rotate = some (rotateStep cfg del1 name s) ∧
    (rotateStep cfg del1 name s).rotated_items = (rotateStep cfg del2 name s).rotated_items ∧
    (rotateStep cfg del1 name s).deleteAttempts = (rotateStep cfg del2 name s).deleteAttempts ∧
    (rotateStep cfg del1 name s).archived = (rotateStep cfg del2 name s).archived ∧
    (rotateStep cfg del1 name s).file = (rotateStep cfg del2 name s).file ∧
    (rotateStep cfg del1 name s).file_size = (rotateStep cfg del2 name s).file_size ∧
    (rotateStep cfg del1 name s).nextGen = (rotateStep cfg del2 name s).nextGen := by
  refine ⟨rfl, ?_, ?_, rfl, rfl, rfl, rfl⟩
  · rw [rotateStep_rotated_items, prune_items, rotateStep_rotated_items, prune_items]
  · rw [rotateStep_deleteAttempts, prune_attempts, rotateStep_deleteAttempts, prune_attempts]

/-- C1 counterexample: with `buffer_size = 1`, an entry of length 2 is not
accepted; the worker's processing of the message fails (the slice copy
`bytes_buf[0..len]` is out of bounds), contrary to the claim that the
buffer temporarily holds the oversized entry without failing. -/
theorem c1_counterexample :
    step c1cfg (fun _ => false) [] c1s (Message.msg [7, 7]) = none := by decide

/-- C1 amended: an entry strictly longer than `buffer_size` is never
accepted: the `Msg` arm aborts (out-of-bounds copy into the fixed-size
buffer), so processing the entry fails rather than leaving it in the
buffer (lib.rs lines 126, 268-279). -/
theorem c1_oversized_entry_aborts (cfg : Config) (del : List Char → Bool)
    (name : List Char) (s : WorkerState) (data : List Nat)
    (hbuf : s.bytes_buf.length = cfg.buffer_size)
    (hlen : cfg.buffer_size < data.length) :
    step cfg del name s (Message.msg data) = none := by
  show bufStep cfg (fileStep cfg del name s data.length) data = none
  unfold bufStep
  simp only [fileStep_curr_len, fileStep_bytes_buf]
  have hover : cfg.buffer_size < s.curr_len + data.length := by omega
  rw [if_pos hover]
  unfold setSlice
  have hfit : ¬ (0 + data.length ≤ s.bytes_buf.length) := by omega
  rw [if_neg hfit]
  rfl

/-- Witness for the amended C1. -/
theorem c1_oversized_entry_aborts_witness :
    step c1cfg (fun _ => false) [] c1s (Message.msg [7, 7, 7]) = none :=
  c1_oversized_entry_aborts c1cfg (fun _ => false) [] c1s [7, 7, 7]
    (by decide) (by decide)

/-- C2 counterexample: with `rotate_size = 100` and `file_size = 95`, the
entry of length 10 is processed (and does trigger a rotation), but the
resulting `file_size` is 0, not 10: the `else` branch that would add the
length is skipped when the rotation branch runs (lib.rs lines 263-267). -/
theorem c2_counterexample :
    (step c2cfg c2del c2name c2s (Message.msg c2data)).map WorkerState.file_size ≠
      some 10 ∧
    (step c2cfg c2del c2name c2s (Message.msg c2data)).map WorkerState.file_size =
      some 0 := by decide

/-- C2 amended: with `rotate_size = 100` and `file_size = 95`, an entry of
length 10 triggers a rotation (the active file is archived, its `.gz`
path joins the retention window, the rotation counter advances), and the
new `file_size` is 0 — the triggering entry's length is not attributed to
the new file generation. -/
theorem c2_rotation_scenario :
    (step c2cfg c2del c2name c2s (Message.msg c2data)).map WorkerState.file_size =
      some 0 ∧
    (step c2cfg c2del c2name c2s (Message.msg c2data)).map WorkerState.nextGen =
      some (c2s.nextGen + 1) ∧
    (step c2cfg c2del c2name c2s (Message.msg c2data)).map WorkerState.archived =
      some (c2s.archived ++ [(c2name, c2s.file)]) ∧
    (step c2cfg c2del c2name c2s (Message.msg c2data)).map WorkerState.rotated_items =
      some [gzName c2name] := by decide

/-- C3: for an entry of length L the rotation decision uses the
pre-entry `file_size`: if `file_size + L > rotate_size` the step rotates
(resetting `file_size` to 0, with the archived file receiving exactly the
pre-entry active-file content — none of the buffered bytes, which land in
the new active file when the buffer overflows), else `file_size` becomes
the prospective value and no rotation happens (lib.rs lines 259-279). -/
theorem c3_rotation_before_buffer (cfg : Config) (del : List Char → Bool)
    (name : List Char) (s t : WorkerState) (data : List Nat)
    (h : step cfg del name s (Message.msg data) = some t) :
    if cfg.rotate_size < s.file_size + data.length then
      t.file_size = 0 ∧
      t.archived = s.archived ++ [(name, s.file)] ∧
      t.file = (if cfg.buffer_size < s.curr_len + data.length
                then s.bytes_buf.take s.curr_len else [])
    else
      t.file_size = s.file_size + data.length ∧
      t.archived = s.archived ∧
      t.file = s.file ++ (if cfg.buffer_size < s.curr_len + data.length
                          then s.bytes_buf.take s.curr_len else []) := by
  replace h : bufStep cfg (fileStep cfg del name s data.length) data = some t := h
  by_cases hrot : cfg.rotate_size < s.file_size + data.length
  · rw [if_pos hrot]
    rw [show fileStep cfg del name s data.length = rotateStep cfg del name s by
      unfold fileStep; rw [if_pos hrot]] at h
    rcases bufStep_some h with ⟨hc, hfit, rfl⟩ | ⟨hc, hfit, rfl⟩
    · simp only [rotateStep_curr_len] at hc
      refine ⟨rfl, rfl, ?_⟩
      rw [if_pos hc]
      simp
    · simp only [rotateStep_curr_len] at hc
      refine ⟨rfl, rfl, ?_⟩
      rw [if_neg hc]
      rfl
  · rw [if_neg hrot]
    rw [show fileStep cfg del name s data.length =
        { s with file_size := s.file_size + data.length } by
      unfold fileStep; rw [if_neg hrot]] at h
    rcases bufStep_some h with ⟨hc, hfit, rfl⟩ | ⟨hc, hfit, rfl⟩
    · simp only [WorkerState.curr_len] at hc
      refine ⟨rfl, rfl, ?_⟩
      rw [if_pos hc]
    · simp only [WorkerState.curr_len] at hc
      refine ⟨rfl, rfl, ?_⟩
      rw [if_neg hc]
      simp

/-- Witness for C3: an entry that triggers both a rotation and a buffer
overflow; the archive gets only the pre-entry file content and the
flushed buffer bytes land in the new active file. -/
theorem c3_rotation_before_buffer_witness :
    if c3cfg.rotate_size < c3s.file_size + ([1, 1, 1] : List Nat).length then
      c3t.file_size = 0 ∧
      c3t.archived = c3s.archived ++ [(c3name, c3s.file)] ∧
      c3t.file = (if c3cfg.buffer_size < c3s.curr_len + ([1, 1, 1] : List Nat).length
                  then c3s.bytes_buf.take c3s.curr_len else [])
    else
      c3t.file_size = c3s.file_size + ([1, 1, 1] : List Nat).length ∧
      c3t.archived = c3s.archived ∧
      c3t.file = c3s.file ++
        (if c3cfg.buffer_size < c3s.curr_len + ([1, 1, 1] : List Nat).length
         then c3s.bytes_buf.take c3s.curr_len else []) :=
  c3_rotation_before_buffer c3cfg c3del c3name c3s c3t [1, 1, 1] (by decide)

/-- C4: from any state satisfying the worker invariant, after any
successfully processed sequence of messages the buffer fill never exceeds
`buffer_size`.  The transient oversized-entry exception permitted by the
claim never materializes: an entry longer than `buffer_size` is never
placed in the buffer (its processing aborts instead, see C1), so the
bound holds outright after every message (lib.rs lines 268-279). -/
theorem c4_buffer_capacity (cfg : Config) (del : List Char → Bool)
    (names : Nat → List Char) (s : WorkerState) (ms : List Message) (t : WorkerState)
    (hinv : Inv cfg s) (h : run cfg del names s ms = some t) :
    t.curr_len ≤ cfg.buffer_size :=
  (run_inv hinv h).2

/-- Witness for C4: a four-message run including an overflow flush. -/
theorem c4_buffer_capacity_witness : c4t.curr_len ≤ c4cfg.buffer_size :=
  c4_buffer_capacity c4cfg c4del c4names c4s c4ms c4t (by decide) (by decide)

/-- C5 counterexample: the claim quantifies over every entry length L,
but with `buffer_size = 2`, fill 0 and an entry of length 3 (so F + L
exceeds `buffer_size`), the entry is not placed alone in the buffer with
fill = L: processing fails on the out-of-bounds copy. -/
theorem c5_counterexample :
    step c5ccfg (fun _ => true) [] c5cs (Message.msg [9, 9, 9]) = none := by decide

/-- C5 amended: for every entry whose processing succeeds (which requires
L ≤ `buffer_size`): if fill F + L exceeds `buffer_size`, the F buffered
bytes are flushed to the (possibly fresh after rotation) active file and
echoed to stdout when enabled, and the entry is placed alone at the front
of the buffer with fill L; otherwise the entry is appended and fill
becomes F + L with nothing written (lib.rs lines 268-279). -/
theorem c5_buffer_policy (cfg : Config) (del : List Char → Bool)
    (name : List Char) (s t : WorkerState) (data : List Nat)
    (h : step cfg del name s (Message.msg data) = some t) :
    if cfg.buffer_size < s.curr_len + data.length then
      t.curr_len = data.length ∧
      t.bytes_buf.take data.length = data ∧
      t.file = (if cfg.rotate_size < s.file_size + data.length then [] else s.file)
               ++ s.bytes_buf.take s.curr_len ∧
      t.stdoutOut = s.stdoutOut ++ (if cfg.stdout then s.bytes_buf.take s.curr_len else [])
    else
      t.curr_len = s.curr_len + data.length ∧
      t.bytes_buf.take (s.curr_len + data.length) = s.bytes_buf.take s.curr_len ++ data ∧
      t.file = (if cfg.rotate_size < s.file_size + data.length then [] else s.file) ∧
      t.stdoutOut = s.stdoutOut := by
  replace h : bufStep cfg (fileStep cfg del name s data.length) data = some t := h
  by_cases hrot : cfg.rotate_size < s.file_size + data.length
  · rw [show fileStep cfg del name s data.length = rotateStep cfg del name s by
      unfold fileStep; rw [if_pos hrot]] at h
    rcases bufStep_some h with ⟨hc, hfit, rfl⟩ | ⟨hc, hfit, rfl⟩
    · simp only [rotateStep_curr_len, rotateStep_bytes_buf] at hc hfit
      rw [if_pos hc]
      refine ⟨rfl, ?_, ?_, ?_⟩
      · show List.take data.length (data ++ List.drop data.length s.bytes_buf) = data
        exact List.take_left' rfl
      · rw [if_pos hrot]
        rfl
      · rfl
    · simp only [rotateStep_curr_len, rotateStep_bytes_buf] at hc hfit
      rw [if_neg hc]
      refine ⟨rfl, ?_, ?_, ?_⟩
      · exact List.take_left'
          (by simp only [List.length_append, List.length_take,
                rotateStep_curr_len, rotateStep_bytes_buf]; omega)
      · rw [if_pos hrot]
        rfl
      · rfl
  · rw [show fileStep cfg del name s data.length =
        { s with file_size := s.file_size + data.length } by
      unfold fileStep; rw [if_neg hrot]] at h
    rcases bufStep_some h with ⟨hc, hfit, rfl⟩ | ⟨hc, hfit, rfl⟩
    · simp only [WorkerState.curr_len, WorkerState.bytes_buf] at hc hfit
      rw [if_pos hc]
      refine ⟨rfl, ?_, ?_, ?_⟩
      · show List.take data.length (data ++ List.drop data.length s.bytes_buf) = data
        exact List.take_left' rfl
      · rw [if_neg hrot]
      · rfl
    · simp only [WorkerState.curr_len, WorkerState.bytes_buf] at hc hfit
      rw [if_neg hc]
      refine ⟨rfl, ?_, ?_, ?_⟩
      · exact List.take_left'
          (by simp only [List.length_append, List.length_take,
                WorkerState.curr_len, WorkerState.bytes_buf]; omega)
      · rw [if_neg hrot]
      · rfl

/-- Witness for the amended C5, realizing the spec's scenario: with
`buffer_size = 10` and the buffer full with "abcdefghij" (fill 10, the
state after entries of lengths 3, 5 and 2), the entry "k" of length 1
flushes the 10 bytes to the file (and stdout) and leaves only "k" in the
buffer. -/
theorem c5_buffer_policy_witness :
    if c5cfg.buffer_size < c5s.curr_len + ([107] : List Nat).length then
      c5t.curr_len = ([107] : List Nat).length ∧
      c5t.bytes_buf.take ([107] : List Nat).length = [107] ∧
      c5t.file = (if c5cfg.rotate_size < c5s.file_size + ([107] : List Nat).length
                  then [] else c5s.file) ++ c5s.bytes_buf.take c5s.curr_len ∧
      c5t.stdoutOut = c5s.stdoutOut ++
        (if c5cfg.stdout then c5s.bytes_buf.take c5s.curr_len else [])
    else
      c5t.curr_len = c5s.curr_len + ([107] : List Nat).length ∧
      c5t.bytes_buf.take (c5s.curr_len + ([107] : List Nat).length) =
        c5s.bytes_buf.take c5s.curr_len ++ [107] ∧
      c5t.file = (if c5cfg.rotate_size < c5s.file_size + ([107] : List Nat).length
                  then [] else c5s.file) ∧
      c5t.stdoutOut = c5s.stdoutOut :=
  c5_buffer_policy c5cfg (fun _ => true) ['x'] c5s c5t [107] (by decide)

/-- C10: provided the starting `file_size` is at most `rotate_size`, it
stays at most `rotate_size` after any successfully processed message
sequence: an entry either advances `file_size` to a prospective value
within the bound or rotates (resetting it to 0), a `Rotate` message
resets it to 0, and a `Flush` leaves it unchanged (lib.rs lines 208-209,
259-267). -/
theorem c10_file_size_bound (cfg : Config) (del : List Char → Bool)
    (names : Nat → List Char) (s : WorkerState) (ms : List Message) (t : WorkerState)
    (h0 : s.file_size ≤ cfg.rotate_size) (h : run cfg del names s ms = some t) :
    t.file_size ≤ cfg.rotate_size :=
  run_file_size_le h0 h

/-- Witness for C10: a run with an entry-triggered rotation, an explicit
rotation and a flush. -/
theorem c10_file_size_bound_witness : c10t.file_size ≤ c10cfg.rotate_size :=
  c10_file_size_bound c10cfg (fun _ => true) c10names c10s c10ms c10t
    (by decide) (by decide)

end BufferedLogger
